import Mathlib

/-!
# Qlash: configuration store and process supervisor

A shallow embedding of `src/core/configurator.cpp` and `src/core/clashCore.cpp`.

* The persisted settings store (`QSettings`) is an association list from keys to
  `QVariant` values; `QVariant` keeps the type the value was stored with and is
  read through the conversions `toInt`, `toBool`, `toString`, `toStringList`.
* The loaded YAML document (`root`) is an association list from field names to
  nodes. A node is described by what the three conversions used by the program
  (`as<int>`, `as<std::string>`, `as<bool>`) produce on it; a conversion that
  throws is `none`.
* Member functions become functions on an explicit `Configurator` state. A
  function that can throw returns `Except Failure _`.
-/

namespace Qlash

deriving instance DecidableEq for Except

/-! ## Qt value types -/

/-- Decimal digits of a natural number, most significant first (fuel-bounded). -/
def digitsAux : Nat → Nat → List Char → List Char
  | 0, _, acc => acc
  | fuel + 1, n, acc =>
    let acc1 := Char.ofNat (48 + n % 10) :: acc
    if n / 10 = 0 then acc1 else digitsAux fuel (n / 10) acc1

/-- `QString::number(int)`: decimal rendering with a leading minus sign. -/
def QString.number (n : Int) : String :=
  match n with
  | Int.ofNat k => String.mk (digitsAux (k + 1) k [])
  | Int.negSucc k => String.mk ('-' :: digitsAux (k + 2) (k + 1) [])

/-- Value of a string of decimal digits, `none` when a character is not a digit. -/
def digitsValue : List Char → Nat → Option Nat
  | [], acc => some acc
  | c :: cs, acc =>
    if 48 ≤ c.toNat ∧ c.toNat ≤ 57 then digitsValue cs (acc * 10 + (c.toNat - 48)) else none

/-- White space at both ends of a text is skipped by the number parser. -/
def trimSpace (cs : List Char) : List Char :=
  ((cs.dropWhile Char.isWhitespace).reverse.dropWhile Char.isWhitespace).reverse

/-- `QString::toInt`: an optionally signed decimal numeral that fits a 32-bit
`int`, white space around it allowed; every other text gives 0. -/
def QString.toInt (s : String) : Int :=
  let signed : Option Int :=
    match trimSpace s.data with
    | [] => none
    | '-' :: ds => if ds = [] then none else (digitsValue ds 0).map (fun k => - (k : Int))
    | '+' :: ds => if ds = [] then none else (digitsValue ds 0).map (fun k => (k : Int))
    | ds => (digitsValue ds 0).map (fun k => (k : Int))
  match signed with
  | some v => if -2147483648 ≤ v ∧ v ≤ 2147483647 then v else 0
  | none => 0

/-- The `QVariant` values the program stores and reads back. -/
inductive QVariant where
  | invalid
  | bool (b : Bool)
  | int (n : Int)
  | string (s : String)
  | byteArray (s : String)
  | stringList (l : List String)
  deriving DecidableEq, Repr

namespace QVariant

/-- `QVariant::toInt()`. -/
def toInt : QVariant → Int
  | .int n => n
  | .bool b => if b then 1 else 0
  | .string s => QString.toInt s
  | .byteArray s => QString.toInt s
  | _ => 0

/-- `QVariant::toBool()`: numbers are true when non-zero, text is true unless its
lower-case form is empty, "0" or "false". -/
def toBool : QVariant → Bool
  | .bool b => b
  | .int n => n != 0
  | .string s =>
    let low := s.data.map Char.toLower
    !(low = [] || low = ['0'] || low = ['f', 'a', 'l', 's', 'e'])
  | .byteArray s =>
    let low := s.data.map Char.toLower
    !(low = [] || low = ['0'] || low = ['f', 'a', 'l', 's', 'e'])
  | _ => false

/-- `QVariant::toString()`. -/
def toString : QVariant → String
  | .string s => s
  | .byteArray s => s
  | .int n => QString.number n
  | .bool b => if b then "true" else "false"
  | .stringList [s] => s
  | _ => ""

/-- The cast `value<QList<QString>>()`. -/
def toStringList : QVariant → List String
  | .stringList l => l
  | .string s => [s]
  | .byteArray s => [s]
  | _ => []

end QVariant

/-- The persisted override store: a `QSettings` object seen as key/value pairs. -/
abbrev QSettings := List (String × QVariant)

/-- `QSettings::value(key, defaultValue)`. -/
def QSettings.value (s : QSettings) (key : String) (defaultValue : QVariant) : QVariant :=
  (s.lookup key).getD defaultValue

/-- `QSettings::setValue(key, value)`: replaces the value of an existing key,
adds the key otherwise. -/
def QSettings.setValue : QSettings → String → QVariant → QSettings
  | [], key, v => [(key, v)]
  | (k, w) :: rest, key, v =>
    if k = key then (key, v) :: rest else (k, w) :: QSettings.setValue rest key v

/-- `QSettings::contains(key)`: an override is stored under `key`. -/
def QSettings.contains (s : QSettings) (key : String) : Bool :=
  (s.lookup key).isSome

/-! ## YAML documents -/

/-- A defined yaml-cpp node, described by the results of the conversions the
program applies to it; `none` stands for a conversion that throws. -/
structure YamlNode where
  asString : Option String
  asInt : Option Int
  asBool : Option Bool
  deriving DecidableEq, Repr

/-- An integer scalar such as `7890`, with its text. -/
def YamlNode.number (text : String) (n : Int) : YamlNode :=
  { asString := some text, asInt := some n, asBool := none }

/-- A plain text scalar such as `rule`. -/
def YamlNode.text (s : String) : YamlNode :=
  { asString := some s, asInt := none, asBool := none }

/-- A boolean scalar such as `true`, with its text. -/
def YamlNode.flag (text : String) (b : Bool) : YamlNode :=
  { asString := some text, asInt := none, asBool := some b }

/-- A YAML mapping document: field name to node. -/
abbrev YamlDoc := List (String × YamlNode)

/-- What can go wrong in the modelled member functions. -/
inductive Failure where
  | badFile
  | parserException
  | typedBadConversion
  | indexOutOfRange
  deriving DecidableEq, Repr

/-- `root[key].as<int>()`: throws on a missing field or a failed conversion. -/
def YamlDoc.asInt (root : YamlDoc) (key : String) : Except Failure Int :=
  match root.lookup key with
  | some node =>
    match node.asInt with
    | some n => .ok n
    | none => .error .typedBadConversion
  | none => .error .typedBadConversion

/-- `root[key].as<std::string>()`. -/
def YamlDoc.asString (root : YamlDoc) (key : String) : Except Failure String :=
  match root.lookup key with
  | some node =>
    match node.asString with
    | some s => .ok s
    | none => .error .typedBadConversion
  | none => .error .typedBadConversion

/-- `root[key].as<bool>()`. -/
def YamlDoc.asBool (root : YamlDoc) (key : String) : Except Failure Bool :=
  match root.lookup key with
  | some node =>
    match node.asBool with
    | some b => .ok b
    | none => .error .typedBadConversion
  | none => .error .typedBadConversion

/-- The test `if (root[key])`: the field is defined. -/
def YamlDoc.defined (root : YamlDoc) (key : String) : Bool :=
  (root.lookup key).isSome

/-! ## Files -/

/-- Content of a file in the configuration directory, as `YAML::LoadFile` sees it. -/
inductive YamlFile where
  | document (doc : YamlDoc)
  | malformed
  deriving DecidableEq, Repr

/-- The files that exist, by path. -/
abbrev FileSystem := List (String × YamlFile)

/-- `QFile::exists(path)`. -/
def FileSystem.exists (fs : FileSystem) (path : String) : Bool :=
  (fs.lookup path).isSome

/-- `QFile::remove(path)`. -/
def FileSystem.remove (fs : FileSystem) (path : String) : FileSystem :=
  fs.filter (fun entry => entry.1 != path)

/-! ## Sorted maps, JSON values, subscriptions -/

/-- Insertion into a key-sorted association list, as done by `QMap::insert`,
`QMap::operator[]` assignment and `QJsonObject::insert`: the value of a key that
is already there is replaced. -/
def sortedInsert {β : Type} (key : String) (v : β) : List (String × β) → List (String × β)
  | [] => [(key, v)]
  | (k, w) :: rest =>
    if k = key then (key, v) :: rest
    else if k.data < key.data then (k, w) :: sortedInsert key v rest
    else (key, v) :: (k, w) :: rest

/-- The result type of `diffConfigs`, a `QMap<QString, QString>`. -/
abbrev QMap := List (String × String)

/-- A `QJsonValue`; a number is kept as its text. -/
inductive QJsonValue where
  | undefined
  | null
  | bool (b : Bool)
  | number (text : String)
  | string (s : String)
  | array (items : List QJsonValue)
  | object (members : List (String × QJsonValue))

/-- A `QJsonObject`: member name to value. -/
abbrev QJsonObject := List (String × QJsonValue)

/-- `QJsonValue::toObject()`: the empty object for every non-object value. -/
def QJsonValue.toObject : QJsonValue → QJsonObject
  | .object members => members
  | _ => []

/-- `QJsonObject::value(key)`: `Undefined` when the key is missing. -/
def QJsonObject.value (o : QJsonObject) (key : String) : QJsonValue :=
  (o.lookup key).getD .undefined

/-- `QJsonObject::insert(key, value)` for a defined value, also the assignment
`object[key] = value`. -/
def QJsonObject.insert (o : QJsonObject) (key : String) (v : QJsonValue) : QJsonObject :=
  sortedInsert key v o

/-- `object.find(key).value()`: the member found; when the key is missing the
iterator is `end()`, whose index lies past the last member, and reading through
it gives `Undefined` (the bounds check of `QJsonObject::valueAt`). -/
def QJsonObject.findValue (o : QJsonObject) (key : String) : QJsonValue :=
  match o.lookup key with
  | some v => v
  | none => .undefined

/-- The JSON text functions of Qt used on the rule mapping:
`QJsonDocument(object).toJson()` and `QJsonDocument::fromJson(text).object()`. -/
structure JsonText where
  toJson : QJsonObject → String
  fromJson : String → QJsonObject

/-- A `QDateTime` in milliseconds since the epoch; `none` is the null date. -/
abbrev QDateTime := Option Int

/-- One subscription record. -/
structure Subscribe where
  name : String
  url : String
  updateTime : QDateTime
  deriving DecidableEq, Repr

/-- Modelled from the spec: class `Subscribe` is declared outside `src/`. Its
serialisation `jsonToString(s.write())`, its constructor from
`stringToJson(text)` and the update time its one-argument constructor assigns
are taken as they come. -/
structure SubscribeClass where
  write : Subscribe → String
  read : String → Subscribe
  initialTime : QDateTime

/-- Modelled from the spec: the constructor `Subscribe(name)` of the class
declared outside `src/`: the given name and an empty url. -/
def SubscribeClass.named (k : SubscribeClass) (name : String) : Subscribe :=
  { name := name, url := "", updateTime := k.initialTime }

/-! ## Configurator -/

/-- The state read and written by the member functions of `Configurator`: the
home directory, the files on disk, the settings store, and the members `root`,
`isMixedPort` and `proxyGroups`. -/
structure Configurator where
  home : String
  files : FileSystem
  settings : QSettings
  root : YamlDoc
  isMixedPort : Bool
  proxyGroups : QJsonObject

namespace Configurator

/-- `Configurator::getClashConfigPath(name)`. -/
def getClashConfigPath (c : Configurator) (name : String) : String :=
  c.home ++ "/.config/clash/" ++ name ++ ".yaml"

/-- `Configurator::loadClashConfig`: `YAML::LoadFile` throws `BadFile` for a
missing file (rethrown) and a parser exception for malformed text; on success
`root` is replaced and `isMixedPort` records whether `mixed-port` is defined. -/
def loadClashConfig (c : Configurator) (name : String) : Except Failure (YamlDoc × Configurator) :=
  match c.files.lookup (c.getClashConfigPath name) with
  | none => .error .badFile
  | some .malformed => .error .parserException
  | some (.document doc) =>
    .ok (doc, { c with root := doc, isMixedPort := YamlDoc.defined doc "mixed-port" })

/-- `Configurator::loadValue(key, defaultValue)`. -/
def loadValue (c : Configurator) (key : String) (defaultValue : QVariant) : QVariant :=
  c.settings.value key defaultValue

/-- `Configurator::saveValue(key, value)`. -/
def saveValue (c : Configurator) (key : String) (value : QVariant) : Configurator :=
  { c with settings := c.settings.setValue key value }

/-- `Configurator::getSecret`. -/
def getSecret (c : Configurator) : Except Failure String :=
  if YamlDoc.defined c.root "secret" then YamlDoc.asString c.root "secret" else .ok ""

/-- `Configurator::setMode`. -/
def setMode (c : Configurator) (mode : String) : Configurator :=
  c.saveValue "mode" (.string mode)

/-- `Configurator::getMode`: the default argument `root["mode"].as<std::string>()`
is evaluated before the store is read. -/
def getMode (c : Configurator) : Except Failure String := do
  let modeYaml ← YamlDoc.asString c.root "mode"
  pure (c.loadValue "mode" (.string modeYaml)).toString

/-- `Configurator::setHttpPort`. -/
def setHttpPort (c : Configurator) (port : Int) : Configurator :=
  c.saveValue "httpPort" (.int port)

/-- `Configurator::getHttpPort`. -/
def getHttpPort (c : Configurator) : Except Failure Int :=
  if c.isMixedPort then do
    let mixed ← YamlDoc.asInt c.root "mixed-port"
    pure (c.loadValue "mixed-port" (.int mixed)).toInt
  else do
    let port ← YamlDoc.asInt c.root "port"
    pure (c.loadValue "port" (.int port)).toInt

/-- `Configurator::setSocksPort`. -/
def setSocksPort (c : Configurator) (port : Int) : Configurator :=
  c.saveValue "socksPort" (.int port)

/-- `Configurator::getSocksPort`. -/
def getSocksPort (c : Configurator) : Except Failure Int :=
  if c.isMixedPort then do
    let mixed ← YamlDoc.asInt c.root "mixed-port"
    pure (c.loadValue "mixed-port" (.int mixed)).toInt
  else do
    let port ← YamlDoc.asInt c.root "socks-port"
    pure (c.loadValue "socksPort" (.int port)).toInt

/-- `Configurator::setAllowLan`. -/
def setAllowLan (c : Configurator) (flag : Bool) : Configurator :=
  c.saveValue "allowLan" (.bool flag)

/-- `Configurator::getAllowLan`. -/
def getAllowLan (c : Configurator) : Except Failure Bool := do
  let flag ← YamlDoc.asBool c.root "allow-lan"
  pure (c.loadValue "allowLan" (.bool flag)).toBool

/-- `Configurator::setLogLevel`. -/
def setLogLevel (c : Configurator) (level : String) : Configurator :=
  c.saveValue "logLevel" (.string level)

/-- `Configurator::getLogLevel`. -/
def getLogLevel (c : Configurator) : Except Failure String := do
  let level ← if !YamlDoc.defined c.root "log-level" then pure "info"
    else YamlDoc.asString c.root "log-level"
  pure (c.loadValue "logLevel" (.string level)).toString

/-- `Configurator::diffConfigs`. `QString::number` of a `bool` prints 0 or 1. -/
def diffConfigs (c : Configurator) : Except Failure QMap := do
  let configs : QMap := []
  let modeSaved := (c.loadValue "mode" (.string "")).toString
  let modeYaml ← YamlDoc.asString c.root "mode"
  let configs := if modeSaved ≠ "" ∧ modeSaved ≠ modeYaml
    then sortedInsert "mode" modeSaved configs else configs
  let httpPortSaved := (c.loadValue "port" (.int (-1))).toInt
  let httpPortYaml ← YamlDoc.asInt c.root "port"
  let configs := if httpPortSaved ≠ -1 ∧ httpPortSaved ≠ httpPortYaml
    then sortedInsert "port" (QString.number httpPortSaved) configs else configs
  let socksPortSaved := (c.loadValue "socksPort" (.int (-1))).toInt
  let socksPortYaml ← YamlDoc.asInt c.root "socks-port"
  let configs := if socksPortSaved ≠ -1 ∧ socksPortSaved ≠ socksPortYaml
    then sortedInsert "socks-port" (QString.number socksPortSaved) configs else configs
  let allowLanSaved := (c.loadValue "allowLan" (.bool false)).toBool
  let allowLanYaml ← YamlDoc.asBool c.root "allow-lan"
  let configs := if allowLanSaved ≠ allowLanYaml
    then sortedInsert "allow-lan" (QString.number (if allowLanSaved then 1 else 0)) configs
    else configs
  let logLevelSaved := (c.loadValue "logLevel" (.string "")).toString
  let logLevelYaml ← YamlDoc.asString c.root "log-level"
  let configs := if logLevelSaved ≠ "" ∧ logLevelSaved ≠ logLevelYaml
    then sortedInsert "log-level" logLevelSaved configs else configs
  pure configs

/-- `Configurator::getSubscribes`. -/
def getSubscribes (k : SubscribeClass) (c : Configurator) : List Subscribe :=
  let data := (c.loadValue "subscribes" .invalid).toStringList
  let subscribes : List Subscribe := if data.isEmpty then [k.named "config"] else []
  subscribes ++ data.map k.read

/-- `Configurator::setSubscribes`. -/
def setSubscribes (k : SubscribeClass) (c : Configurator) (subscribes : List Subscribe) :
    Configurator :=
  c.saveValue "subscribes" (.stringList (subscribes.map k.write))

/-- The loop of `getSubscribeByName`: the first entry with the given name. -/
def firstNamed (name : String) : List Subscribe → Option Subscribe
  | [] => none
  | subscribe :: rest => if subscribe.name = name then some subscribe else firstNamed name rest

/-- `Configurator::getSubscribeByName`. -/
def getSubscribeByName (k : SubscribeClass) (c : Configurator) (name : String) : Subscribe :=
  match firstNamed name (getSubscribes k c) with
  | some subscribe => subscribe
  | none => k.named "config"

/-- `Configurator::delSubscribeByIndex`: `subscribes[index]` needs a valid index. -/
def delSubscribeByIndex (k : SubscribeClass) (c : Configurator) (index : Int) :
    Except Failure (Subscribe × Configurator) :=
  let subscribes := getSubscribes k c
  if index < 0 then .error .indexOutOfRange
  else
    match subscribes[index.toNat]? with
    | none => .error .indexOutOfRange
    | some sub =>
      let file := c.getClashConfigPath sub.name
      let c1 := if c.files.exists file then { c with files := c.files.remove file } else c
      let subscribes1 := subscribes.eraseIdx index.toNat
      .ok (sub, setSubscribes k c1 subscribes1)

/-- The rule object read by both rule functions:
`QJsonDocument::fromJson(loadValue("proxyGroupsRule").toString().toUtf8()).object()`. -/
def storedRule (j : JsonText) (c : Configurator) : QJsonObject :=
  j.fromJson (c.loadValue "proxyGroupsRule" .invalid).toString

/-- `Configurator::getProxyGroupsRule`: also stores the parsed object in the
member `proxyGroups`. -/
def getProxyGroupsRule (j : JsonText) (c : Configurator) (name : String) :
    QJsonObject × Configurator :=
  let proxyGroups := storedRule j c
  let current : QJsonObject :=
    if !proxyGroups.isEmpty then (QJsonObject.value proxyGroups name).toObject else []
  (current, { c with proxyGroups := proxyGroups })

/-- The object `oldRule` that `setProxyGroupsRule` has built when it saves. -/
def mergedRule (j : JsonText) (c : Configurator) (name group proxy : String) : QJsonObject :=
  let oldRule := storedRule j c
  let oldRule := if oldRule.isEmpty then QJsonObject.insert oldRule name (.object []) else oldRule
  let ref := QJsonObject.findValue oldRule name
  let current := ref.toObject
  let current := QJsonObject.insert current group (.string proxy)
  QJsonObject.insert oldRule name (.object current)

/-- `Configurator::setProxyGroupsRule`. -/
def setProxyGroupsRule (j : JsonText) (c : Configurator) (name group proxy : String) :
    Configurator :=
  c.saveValue "proxyGroupsRule" (.byteArray (j.toJson (mergedRule j c name group proxy)))

end Configurator

/-! ## ClashCore -/

/-- `QProcess::ProcessState`. -/
inductive ProcessState where
  | NotRunning
  | Starting
  | Running
  deriving DecidableEq, Repr

/-- The part of a `QProcess` the supervisor reads: `state()` and `exitCode()`. -/
structure QProcess where
  state : ProcessState
  exitCode : Int
  deriving DecidableEq, Repr

/-- What the worker does during the 500 ms of `waitForFinished(500)`: it exits
with a code, or it is still alive when the wait ends. -/
inductive ProbeOutcome where
  | exited (code : Int)
  | alive
  deriving DecidableEq, Repr

/-- `QProcess::start(program)`: a process that is not `NotRunning` is left alone
(Qt only warns); otherwise the exit code is reset to 0 and the launch begins. -/
def QProcess.start (p : QProcess) : QProcess :=
  match p.state with
  | .NotRunning => { state := .Starting, exitCode := 0 }
  | _ => p

/-- `QProcess::waitForFinished(500)` under a given outcome of the wait. -/
def QProcess.waitForFinished (p : QProcess) (probe : ProbeOutcome) : QProcess :=
  match p.state with
  | .NotRunning => p
  | _ =>
    match probe with
    | .exited code => { state := .NotRunning, exitCode := code }
    | .alive => { p with state := .Running }

/-- `QProcess::kill()` followed by `QProcess::waitForFinished()`: a live worker
is killed and reaped, `killCode` being the exit code then reported for it; with
no live worker both calls do nothing. -/
def QProcess.killAndWait (p : QProcess) (killCode : Int) : QProcess :=
  match p.state with
  | .NotRunning => p
  | _ => { state := .NotRunning, exitCode := killCode }

/-- The supervisor: the member `clashProcess`. -/
structure ClashCore where
  clashProcess : QProcess
  deriving DecidableEq, Repr

namespace ClashCore

/-- The constructor: `new QProcess`. -/
def create : ClashCore :=
  { clashProcess := { state := .NotRunning, exitCode := 0 } }

/-- `ClashCore::isRunning`. -/
def isRunning (core : ClashCore) : Bool :=
  core.clashProcess.state == .Running

/-- `ClashCore::start`. -/
def start (core : ClashCore) (probe : ProbeOutcome) : Bool × ClashCore :=
  let p := (core.clashProcess.start).waitForFinished probe
  let exitCode := p.exitCode
  (exitCode == 0, { clashProcess := p })

/-- `ClashCore::stop`. -/
def stop (core : ClashCore) (killCode : Int) : Bool × ClashCore :=
  let p := core.clashProcess.killAndWait killCode
  (p.state == .NotRunning, { clashProcess := p })

/-- `ClashCore::restart`. -/
def restart (core : ClashCore) (killCode : Int) (probe : ProbeOutcome) : Bool × ClashCore :=
  let core1 := (core.stop killCode).2
  let core2 := (core1.start probe).2
  (core2.isRunning, core2)

/-- The specification of restart in the words of the spec: `stop()` followed by
`start()`, returning the running state after the restart. -/
def restartSpec (core : ClashCore) (killCode : Int) (probe : ProbeOutcome) : Bool × ClashCore :=
  let stopped := (core.stop killCode).2
  let started := (stopped.start probe).2
  (started.isRunning, started)

/-- The exit code of a process that has not finished is 0: the invariant of
`QProcess` between `start` and the end of the process. -/
def consistent (core : ClashCore) : Prop :=
  core.clashProcess.state ≠ .NotRunning → core.clashProcess.exitCode = 0

end ClashCore

/-! ## Sample states used in the closed statements -/

/-- A document with the five fields read by `diffConfigs`. -/
def sampleDoc : YamlDoc :=
  [("mode", .text "rule"), ("port", .number "7890" 7890),
   ("socks-port", .number "7891" 7891), ("allow-lan", .flag "false" false),
   ("log-level", .text "info")]

/-- The same document with `allow-lan: true`. -/
def lanDoc : YamlDoc :=
  [("mode", .text "rule"), ("port", .number "7890" 7890),
   ("socks-port", .number "7891" 7891), ("allow-lan", .flag "true" true),
   ("log-level", .text "info")]

/-- A document that declares a mixed port next to the two separate ports. -/
def mixedDoc : YamlDoc :=
  [("mixed-port", .number "7891" 7891), ("port", .number "7890" 7890),
   ("socks-port", .number "7892" 7892)]

/-- A document without a `mode` field and without a `log-level` field. -/
def portsOnlyDoc : YamlDoc :=
  [("port", .number "7890" 7890), ("socks-port", .number "7891" 7891),
   ("allow-lan", .flag "false" false)]

/-- A configurator that has not loaded anything yet; `file` is its `config.yaml`. -/
def fresh (file : YamlDoc) (settings : QSettings) : Configurator :=
  { home := "/home/u", files := [("/home/u/.config/clash/config.yaml", .document file)],
    settings := settings, root := [], isMixedPort := false, proxyGroups := [] }

/-- A configurator that has loaded `doc`, with the given settings store. -/
def loaded (doc : YamlDoc) (settings : QSettings) : Configurator :=
  { home := "/home/u", files := [("/home/u/.config/clash/config.yaml", .document doc)],
    settings := settings, root := doc, isMixedPort := YamlDoc.defined doc "mixed-port",
    proxyGroups := [] }

/-- A stand-in for class `Subscribe` that writes a record as its name. -/
def nameOnly : SubscribeClass :=
  { write := fun s => s.name,
    read := fun text => { name := text, url := "", updateTime := none },
    initialTime := none }

/-- A stand-in for the JSON text functions that knows two texts: "before" is a
mapping with rules for "home" only, "after" has rules for "home" and "work". -/
def twoRuleTexts : JsonText :=
  { toJson := fun _ => "after",
    fromJson := fun text =>
      if text = "before" then [("home", .object [("Proxy", .string "node-2")])]
      else if text = "after" then
        [("home", .object [("Proxy", .string "node-2")]),
         ("work", .object [("Proxy", .string "node-1")])]
      else [] }

/-! ## Lemmas on the stores -/

theorem lookup_setValue (s : QSettings) (key k : String) (v : QVariant) :
    (s.setValue key v).lookup k = if k = key then some v else s.lookup k := by
  induction s with
  | nil =>
    by_cases h : k = key
    · simp [QSettings.setValue, List.lookup, h]
    · have h2 : (k == key) = false := by simp [h]
      simp [QSettings.setValue, List.lookup, h, h2]
  | cons e rest ih =>
    obtain ⟨k0, w⟩ := e
    by_cases h0 : k0 = key
    · by_cases h : k = key
      · simp [QSettings.setValue, List.lookup, h0, h]
      · have h1 : (k == k0) = false := by simp [h0, h]
        have h2 : (k == key) = false := by simp [h]
        simp [QSettings.setValue, List.lookup, h0, h, h2]
    · by_cases h1 : k = k0
      · have h2 : ¬ k = key := by rw [h1]; exact h0
        simp [QSettings.setValue, List.lookup, h0, h1, h2]
      · have h3 : (k == k0) = false := by simp [h1]
        simp [QSettings.setValue, List.lookup, h0, h3, ih]

theorem lookup_sortedInsert {β : Type} (m : List (String × β)) (key k : String) (v : β) :
    (sortedInsert key v m).lookup k = if k = key then some v else m.lookup k := by
  induction m with
  | nil =>
    by_cases h : k = key
    · simp [sortedInsert, List.lookup, h]
    · have h2 : (k == key) = false := by simp [h]
      simp [sortedInsert, List.lookup, h, h2]
  | cons e rest ih =>
    obtain ⟨k0, w⟩ := e
    by_cases h0 : k0 = key
    · by_cases h : k = key
      · simp [sortedInsert, List.lookup, h0, h]
      · have h2 : (k == key) = false := by simp [h]
        simp [sortedInsert, List.lookup, h0, h, h2]
    · by_cases hlt : k0.data < key.data
      · by_cases h1 : k = k0
        · have h2 : ¬ k = key := by rw [h1]; exact h0
          simp [sortedInsert, List.lookup, h0, hlt, h1, h2]
        · have h3 : (k == k0) = false := by simp [h1]
          simp [sortedInsert, List.lookup, h0, hlt, h3, ih]
      · by_cases h : k = key
        · simp [sortedInsert, List.lookup, h0, hlt, h]
        · have h2 : (k == key) = false := by simp [h]
          simp [sortedInsert, List.lookup, h0, hlt, h, h2]

/-- A successful load replaces `root`, sets the flag from the presence of
`mixed-port`, and leaves the settings store alone. -/
theorem loadClashConfig_ok (c c1 : Configurator) (name : String) (doc : YamlDoc)
    (h : c.loadClashConfig name = .ok (doc, c1)) :
    c1.root = doc ∧ c1.isMixedPort = YamlDoc.defined doc "mixed-port" ∧
      c1.settings = c.settings ∧ c1.files = c.files ∧ c1.home = c.home := by
  unfold Configurator.loadClashConfig at h
  split at h
  · cases h
  · cases h
  · injection h with h
    injection h with h1 h2
    subst h1 h2
    simp

/-- The HTTP-port setter writes a key the HTTP-port getter never reads. -/
theorem getHttpPort_setHttpPort (c : Configurator) (p : Int) :
    (c.setHttpPort p).getHttpPort = c.getHttpPort := by
  simp [Configurator.getHttpPort, Configurator.setHttpPort, Configurator.saveValue,
    Configurator.loadValue, QSettings.value, lookup_setValue]

/-! ## Port getters -/

/-- C1 (evaluated at the failing input): the document has `port: 7890` and no
`mixed-port`, the store is empty. Before any override `getHttpPort` returns 7890;
after `setHttpPort(8080)` the store holds `httpPort = 8080`, yet `getHttpPort`
still returns 7890, because it reads the key `port`. -/
theorem getHttpPort_after_setHttpPort_sample :
    (fresh sampleDoc []).loadClashConfig "config" = .ok (sampleDoc, loaded sampleDoc []) ∧
    (loaded sampleDoc []).getHttpPort = .ok 7890 ∧
    ((loaded sampleDoc []).setHttpPort 8080).settings = [("httpPort", .int 8080)] ∧
    ((loaded sampleDoc []).setHttpPort 8080).getHttpPort = .ok 7890 := by
  refine ⟨rfl, rfl, rfl, rfl⟩

/-- C2: after `loadClashConfig` has loaded a document whose `mixed-port` field is
the integer `v`, for every content of the settings store `getHttpPort` and
`getSocksPort` return the same value, the `mixed-port` entry of the store read as
an integer with default `v`; nothing else of the document enters it, and with no
`mixed-port` entry in the store both return `v`. -/
theorem mixed_port_getters_agree (c c1 : Configurator) (name : String) (doc : YamlDoc)
    (node : YamlNode) (v : Int)
    (hload : c.loadClashConfig name = .ok (doc, c1))
    (hfield : doc.lookup "mixed-port" = some node) (hint : node.asInt = some v)
    (settings : QSettings) :
    ({ c1 with settings := settings }).getHttpPort
        = .ok (settings.value "mixed-port" (.int v)).toInt ∧
    ({ c1 with settings := settings }).getSocksPort
        = .ok (settings.value "mixed-port" (.int v)).toInt ∧
    (settings.contains "mixed-port" = false →
      ({ c1 with settings := settings }).getHttpPort = .ok v ∧
      ({ c1 with settings := settings }).getSocksPort = .ok v) := by
  obtain ⟨hroot, hflag, -, -, -⟩ := loadClashConfig_ok c c1 name doc hload
  have hmixed : c1.isMixedPort = true := by
    rw [hflag]; simp [YamlDoc.defined, hfield]
  have hyaml : YamlDoc.asInt c1.root "mixed-port" = .ok v := by
    rw [hroot]; simp [YamlDoc.asInt, hfield, hint]
  have h1 : ({ c1 with settings := settings }).getHttpPort
      = .ok (settings.value "mixed-port" (.int v)).toInt := by
    simp [Configurator.getHttpPort, hmixed, hyaml, Configurator.loadValue, bind, Except.bind,
      pure, Except.pure]
  have h2 : ({ c1 with settings := settings }).getSocksPort
      = .ok (settings.value "mixed-port" (.int v)).toInt := by
    simp [Configurator.getSocksPort, hmixed, hyaml, Configurator.loadValue, bind, Except.bind,
      pure, Except.pure]
  refine ⟨h1, h2, ?_⟩
  intro hnone
  have hl : settings.lookup "mixed-port" = none := by
    simpa [QSettings.contains] using hnone
  rw [h1, h2]
  simp [QSettings.value, hl, QVariant.toInt]

/-- Witness for C2: `mixedDoc` declares `mixed-port: 7891` beside `port: 7890`
and `socks-port: 7892`; with the two separate overrides stored, both getters
return 7891. -/
theorem mixed_port_getters_agree_witness :
    (fresh mixedDoc []).loadClashConfig "config" = .ok (mixedDoc, loaded mixedDoc []) ∧
    ({ loaded mixedDoc [] with
        settings := [("httpPort", .int 8080), ("socksPort", .int 1080)] }).getHttpPort
      = .ok 7891 ∧
    ({ loaded mixedDoc [] with
        settings := [("httpPort", .int 8080), ("socksPort", .int 1080)] }).getSocksPort
      = .ok 7891 :=
  ⟨rfl,
   ((mixed_port_getters_agree (fresh mixedDoc []) (loaded mixedDoc []) "config" mixedDoc
      (.number "7891" 7891) 7891 rfl rfl rfl
      [("httpPort", .int 8080), ("socksPort", .int 1080)]).2.2 rfl).1,
   ((mixed_port_getters_agree (fresh mixedDoc []) (loaded mixedDoc []) "config" mixedDoc
      (.number "7891" 7891) 7891 rfl rfl rfl
      [("httpPort", .int 8080), ("socksPort", .int 1080)]).2.2 rfl).2⟩

/-! ## diffConfigs -/

/-- On a document whose five fields convert, `diffConfigs` returns, and its
`mode` entry is decided by the first comparison alone. -/
theorem diffConfigs_mode (c : Configurator) (modeYaml levelYaml : String)
    (portYaml socksYaml : Int) (lanYaml : Bool)
    (hmode : YamlDoc.asString c.root "mode" = .ok modeYaml)
    (hport : YamlDoc.asInt c.root "port" = .ok portYaml)
    (hsocks : YamlDoc.asInt c.root "socks-port" = .ok socksYaml)
    (hlan : YamlDoc.asBool c.root "allow-lan" = .ok lanYaml)
    (hlevel : YamlDoc.asString c.root "log-level" = .ok levelYaml) :
    ∃ m, c.diffConfigs = .ok m ∧
      m.lookup "mode" =
        (if (c.loadValue "mode" (.string "")).toString ≠ "" ∧
            (c.loadValue "mode" (.string "")).toString ≠ modeYaml
         then some (c.loadValue "mode" (.string "")).toString else none) := by
  unfold Configurator.diffConfigs
  simp only [hmode, hport, hsocks, hlan, hlevel, bind, Except.bind, pure, Except.pure]
  refine ⟨_, rfl, ?_⟩
  split_ifs <;> simp [lookup_sortedInsert]

/-- C3 (counterexample): the document has `mode: rule` and the store holds the
mode override "" (the state after `setMode("")`). The override exists and differs
from the YAML mode, yet `diffConfigs` has no `mode` entry. -/
theorem diffConfigs_mode_empty_override :
    (loaded sampleDoc []).setMode "" = loaded sampleDoc [("mode", .string "")] ∧
    (loaded sampleDoc [("mode", .string "")]).settings.contains "mode" = true ∧
    YamlDoc.asString (loaded sampleDoc [("mode", .string "")]).root "mode" = .ok "rule" ∧
    (QVariant.string "").toString ≠ "rule" ∧
    (loaded sampleDoc [("mode", .string "")]).diffConfigs = .ok [] := by
  refine ⟨rfl, rfl, rfl, by decide, rfl⟩

/-- C3 (amended): on a loaded document that has the five compared fields,
`diffConfigs` returns a map whose `mode` entry is `value` if and only if the
store holds a mode override whose text is `value`, `value` is not empty and
`value` differs from the `mode` of the document. -/
theorem diffConfigs_mode_entry_iff (c : Configurator) (modeYaml levelYaml : String)
    (portYaml socksYaml : Int) (lanYaml : Bool)
    (hmode : YamlDoc.asString c.root "mode" = .ok modeYaml)
    (hport : YamlDoc.asInt c.root "port" = .ok portYaml)
    (hsocks : YamlDoc.asInt c.root "socks-port" = .ok socksYaml)
    (hlan : YamlDoc.asBool c.root "allow-lan" = .ok lanYaml)
    (hlevel : YamlDoc.asString c.root "log-level" = .ok levelYaml) :
    ∃ m, c.diffConfigs = .ok m ∧
      ∀ value : String, m.lookup "mode" = some value ↔
        ∃ v, c.settings.lookup "mode" = some v ∧ v.toString = value ∧
          value ≠ "" ∧ value ≠ modeYaml := by
  obtain ⟨m, hm, hentry⟩ :=
    diffConfigs_mode c modeYaml levelYaml portYaml socksYaml lanYaml hmode hport hsocks hlan hlevel
  refine ⟨m, hm, ?_⟩
  intro value
  rw [hentry]
  unfold Configurator.loadValue QSettings.value
  cases hl : c.settings.lookup "mode" with
  | none => simp [QVariant.toString]
  | some v =>
    simp only [Option.getD_some]
    constructor
    · intro h
      split_ifs at h with hc
      · injection h with h
        exact ⟨v, rfl, h, by rw [← h]; exact hc.1, by rw [← h]; exact hc.2⟩
    · rintro ⟨w, hw, hval, hne, hdiff⟩
      injection hw with hw
      subst hw
      subst hval
      simp [hne, hdiff]

/-- Witness for C3: `mode: rule` with the override "global" gives the entry
`mode -> global`. -/
theorem diffConfigs_mode_entry_iff_witness :
    (loaded sampleDoc [("mode", .string "global")]).diffConfigs = .ok [("mode", "global")] ∧
    ∃ m, (loaded sampleDoc [("mode", .string "global")]).diffConfigs = .ok m ∧
      ∀ value : String, m.lookup "mode" = some value ↔
        ∃ v, (loaded sampleDoc [("mode", .string "global")]).settings.lookup "mode" = some v ∧
          v.toString = value ∧ value ≠ "" ∧ value ≠ "rule" :=
  ⟨rfl, diffConfigs_mode_entry_iff (loaded sampleDoc [("mode", .string "global")]) "rule" "info"
    7890 7891 false rfl rfl rfl rfl rfl⟩

/-- C4 (evaluated at the failing input): the document has `allow-lan: true` and
the store is empty, so no allow-lan override is stored; `diffConfigs` still
returns the entry `allow-lan -> 0`. -/
theorem diffConfigs_allow_lan_without_override :
    (fresh lanDoc []).loadClashConfig "config" = .ok (lanDoc, loaded lanDoc []) ∧
    (loaded lanDoc []).settings.contains "allowLan" = false ∧
    (loaded lanDoc []).diffConfigs = .ok [("allow-lan", "0")] := by
  refine ⟨rfl, rfl, rfl⟩

/-! ## Subscriptions -/

theorem map_read_write (k : SubscribeClass) (l : List Subscribe)
    (h : ∀ s ∈ l, k.read (k.write s) = s) : (l.map k.write).map k.read = l := by
  induction l with
  | nil => rfl
  | cons a rest ih =>
    have ha : k.read (k.write a) = a := h a (List.mem_cons_self a rest)
    have hrest : ∀ s ∈ rest, k.read (k.write s) = s :=
      fun s hs => h s (List.mem_cons_of_mem a hs)
    simp [List.map, ha, ih hrest]

/-- Reading back what `setSubscribes` stored: the list itself when it has an
entry, the synthetic "config" entry when it is empty. -/
theorem getSubscribes_setSubscribes_eq (k : SubscribeClass) (c : Configurator)
    (l : List Subscribe) (h : ∀ s ∈ l, k.read (k.write s) = s) :
    Configurator.getSubscribes k (Configurator.setSubscribes k c l)
      = if l = [] then [k.named "config"] else l := by
  have hstored : ((Configurator.setSubscribes k c l).loadValue "subscribes" .invalid).toStringList
      = l.map k.write := by
    simp [Configurator.setSubscribes, Configurator.saveValue, Configurator.loadValue,
      QSettings.value, lookup_setValue, QVariant.toStringList]
  unfold Configurator.getSubscribes
  simp only [hstored]
  rw [map_read_write k l h]
  cases l with
  | nil => simp
  | cons a rest => simp

theorem lookup_remove (fs : FileSystem) (path : String) :
    (fs.remove path).lookup path = none := by
  induction fs with
  | nil => rfl
  | cons e rest ih =>
    obtain ⟨p0, f⟩ := e
    by_cases h : p0 = path
    · have : (FileSystem.remove ((p0, f) :: rest) path) = FileSystem.remove rest path := by
        simp [FileSystem.remove, List.filter, h]
      rw [this]; exact ih
    · have hne : (p0 != path) = true := by simp [h]
      have hne2 : (path == p0) = false := by
        simp; exact fun hp => h hp.symm
      have : (FileSystem.remove ((p0, f) :: rest) path)
          = (p0, f) :: FileSystem.remove rest path := by
        simp [FileSystem.remove, List.filter, hne]
      rw [this]
      simp [List.lookup, hne2, ih]

theorem firstNamed_spec (name : String) (l : List Subscribe) :
    (∃ (i : Nat) (entry : Subscribe), l[i]? = some entry ∧ entry.name = name ∧
        (∀ (j : Nat) (e : Subscribe), j < i → l[j]? = some e → e.name ≠ name) ∧
        Configurator.firstNamed name l = some entry) ∨
    ((∀ e ∈ l, e.name ≠ name) ∧ Configurator.firstNamed name l = none) := by
  induction l with
  | nil => right; simp [Configurator.firstNamed]
  | cons a rest ih =>
    by_cases ha : a.name = name
    · left
      refine ⟨0, a, by simp, ha, ?_, by simp [Configurator.firstNamed, ha]⟩
      intro j e hj
      omega
    · rcases ih with ⟨i, entry, hi, hname, hbefore, hres⟩ | ⟨hall, hres⟩
      · left
        refine ⟨i + 1, entry, by simpa using hi, hname, ?_, by
          simp [Configurator.firstNamed, ha, hres]⟩
        intro j e hj hje
        cases j with
        | zero =>
          simp at hje
          rw [← hje]; exact ha
        | succ j0 =>
          simp at hje
          exact hbefore j0 e (by omega) hje
      · right
        refine ⟨?_, by simp [Configurator.firstNamed, ha, hres]⟩
        intro e he
        rcases List.mem_cons.mp he with h | h
        · rw [h]; exact ha
        · exact hall e h

/-- C5: when every record of `L` survives `write` followed by the JSON
constructor, `getSubscribes()` after `setSubscribes(L)` returns `L` itself for a
non-empty `L` and the one-element list holding the reserved "config" entry for
the empty list. -/
theorem getSubscribes_after_setSubscribes (k : SubscribeClass) (c : Configurator)
    (l : List Subscribe) (h : ∀ s ∈ l, k.read (k.write s) = s) :
    (l ≠ [] → Configurator.getSubscribes k (Configurator.setSubscribes k c l) = l) ∧
    (l = [] → Configurator.getSubscribes k (Configurator.setSubscribes k c l)
        = [k.named "config"]) ∧
    (k.named "config").name = "config" := by
  have hget := getSubscribes_setSubscribes_eq k c l h
  refine ⟨?_, ?_, rfl⟩
  · intro hne
    rw [hget]; simp [hne]
  · intro he
    rw [hget]; simp [he]

/-- Witness for C5: two records written by name only. -/
theorem getSubscribes_after_setSubscribes_witness :
    Configurator.getSubscribes nameOnly (Configurator.setSubscribes nameOnly (loaded sampleDoc [])
        [{ name := "work", url := "", updateTime := none },
         { name := "home", url := "", updateTime := none }])
      = [{ name := "work", url := "", updateTime := none },
         { name := "home", url := "", updateTime := none }] :=
  (getSubscribes_after_setSubscribes nameOnly (loaded sampleDoc [])
    [{ name := "work", url := "", updateTime := none },
     { name := "home", url := "", updateTime := none }]
    (by decide)).1 (by decide)

/-- C6 (counterexample): one subscription "work" is persisted and its file
exists. `delSubscribeByIndex(0)` returns the entry and removes the file, but
`getSubscribes()` afterwards is the one-element list with the reserved "config"
entry, not the previous list with entry 0 erased (the empty list). -/
theorem delSubscribeByIndex_last_entry :
    Configurator.getSubscribes nameOnly
        { loaded sampleDoc [("subscribes", .stringList ["work"])] with
          files := [("/home/u/.config/clash/work.yaml", .document sampleDoc)] }
      = [{ name := "work", url := "", updateTime := none }] ∧
    (Configurator.delSubscribeByIndex nameOnly
        { loaded sampleDoc [("subscribes", .stringList ["work"])] with
          files := [("/home/u/.config/clash/work.yaml", .document sampleDoc)] } 0).map
        (fun r => (r.1, r.2.files, Configurator.getSubscribes nameOnly r.2))
      = .ok ({ name := "work", url := "", updateTime := none }, [],
          [{ name := "config", url := "", updateTime := none }]) ∧
    [{ name := "config", url := "", updateTime := none }]
      ≠ ([{ name := "work", url := "", updateTime := none }] : List Subscribe).eraseIdx 0 := by
  refine ⟨rfl, rfl, by decide⟩

/-- C6 (amended): for a valid index `i` of `getSubscribes()` whose entries
survive the write/read round trip, `delSubscribeByIndex(i)` returns the entry at
`i`; afterwards `getSubscribes()` is the previous list with entry `i` erased when
that list is not empty, and the one-element list with the reserved "config"
entry when it is empty; the file `<name>.yaml` of the removed entry does not
exist afterwards, and when it did not exist before the files are unchanged. -/
theorem delSubscribeByIndex_spec (k : SubscribeClass) (c : Configurator) (index : Int)
    (sub : Subscribe) (hidx : 0 ≤ index)
    (hsub : (Configurator.getSubscribes k c)[index.toNat]? = some sub)
    (hround : ∀ s ∈ Configurator.getSubscribes k c, k.read (k.write s) = s) :
    ∃ c1, Configurator.delSubscribeByIndex k c index = .ok (sub, c1) ∧
      ((Configurator.getSubscribes k c).eraseIdx index.toNat ≠ [] →
        Configurator.getSubscribes k c1 = (Configurator.getSubscribes k c).eraseIdx index.toNat) ∧
      ((Configurator.getSubscribes k c).eraseIdx index.toNat = [] →
        Configurator.getSubscribes k c1 = [k.named "config"]) ∧
      c1.files.exists (c.getClashConfigPath sub.name) = false ∧
      (c.files.exists (c.getClashConfigPath sub.name) = false → c1.files = c.files) := by
  have hnot : ¬ index < 0 := by omega
  have herased : ∀ s ∈ (Configurator.getSubscribes k c).eraseIdx index.toNat,
      k.read (k.write s) = s := fun s hs => hround s (List.mem_of_mem_eraseIdx hs)
  unfold Configurator.delSubscribeByIndex
  simp only [hnot, if_false, hsub]
  refine ⟨_, rfl, ?_, ?_, ?_, ?_⟩
  · intro hne
    rw [getSubscribes_setSubscribes_eq k _ _ herased]
    simp [hne]
  · intro he
    rw [getSubscribes_setSubscribes_eq k _ _ herased]
    simp [he]
  · by_cases hex : c.files.exists (c.getClashConfigPath sub.name) = true
    · rw [if_pos hex]
      simp [Configurator.setSubscribes, Configurator.saveValue, FileSystem.exists,
        lookup_remove]
    · rw [if_neg hex]
      simpa [Configurator.setSubscribes, Configurator.saveValue] using hex
  · intro hno
    have hex : ¬ c.files.exists (c.getClashConfigPath sub.name) = true := by simp [hno]
    rw [if_neg hex]
    simp [Configurator.setSubscribes, Configurator.saveValue]

/-- Witness for C6: of the two persisted subscriptions "work" and "home" the
first is deleted. -/
theorem delSubscribeByIndex_spec_witness :
    ∃ c1, Configurator.delSubscribeByIndex nameOnly
        (loaded sampleDoc [("subscribes", .stringList ["work", "home"])]) 0
        = .ok ({ name := "work", url := "", updateTime := none }, c1) ∧
      Configurator.getSubscribes nameOnly c1
        = [{ name := "home", url := "", updateTime := none }] :=
  (delSubscribeByIndex_spec nameOnly
      (loaded sampleDoc [("subscribes", .stringList ["work", "home"])]) 0
      { name := "work", url := "", updateTime := none } (by decide) rfl (by decide)).imp
    (fun _ h => ⟨h.1, h.2.1 (by decide)⟩)

/-- C7: `getSubscribeByName(name)` is total: it returns the entry of
`getSubscribes()` with the lowest index whose name is `name` when there is one,
and otherwise the reserved entry, whose name is "config" and whose url is
empty. -/
theorem getSubscribeByName_spec (k : SubscribeClass) (c : Configurator) (name : String) :
    ((∃ (i : Nat) (entry : Subscribe), (Configurator.getSubscribes k c)[i]? = some entry ∧
        entry.name = name ∧
        (∀ (j : Nat) (e : Subscribe), j < i →
          (Configurator.getSubscribes k c)[j]? = some e → e.name ≠ name) ∧
        Configurator.getSubscribeByName k c name = entry) ∨
     ((∀ e ∈ Configurator.getSubscribes k c, e.name ≠ name) ∧
        Configurator.getSubscribeByName k c name = k.named "config")) ∧
    (k.named "config").name = "config" ∧ (k.named "config").url = "" := by
  refine ⟨?_, rfl, rfl⟩
  rcases firstNamed_spec name (Configurator.getSubscribes k c) with
    ⟨i, entry, hi, hname, hbefore, hres⟩ | ⟨hall, hres⟩
  · left
    exact ⟨i, entry, hi, hname, hbefore, by simp [Configurator.getSubscribeByName, hres]⟩
  · right
    exact ⟨hall, by simp [Configurator.getSubscribeByName, hres]⟩

/-! ## Proxy-group rules -/

theorem sortedInsert_ne_nil {β : Type} (m : List (String × β)) (key : String) (v : β) :
    sortedInsert key v m ≠ [] := by
  cases m with
  | nil => simp [sortedInsert]
  | cons e rest =>
    obtain ⟨k0, w⟩ := e
    unfold sortedInsert
    split_ifs <;> simp

theorem findValue_eq_value (o : QJsonObject) (key : String) :
    QJsonObject.findValue o key = QJsonObject.value o key := by
  unfold QJsonObject.findValue QJsonObject.value
  cases o.lookup key <;> rfl

theorem value_insert (o : QJsonObject) (key k : String) (v : QJsonValue) :
    QJsonObject.value (QJsonObject.insert o key v) k
      = if k = key then v else QJsonObject.value o k := by
  unfold QJsonObject.value QJsonObject.insert
  rw [lookup_sortedInsert]
  split_ifs <;> rfl

/-- What `setProxyGroupsRule` saves, in terms of what `getProxyGroupsRule`
returned before: the old selections of `name` with `group` set, stored under
`name` in the old mapping (or in the fresh one-entry mapping when the old one
was empty). -/
theorem mergedRule_eq (j : JsonText) (c : Configurator) (name group proxy : String) :
    Configurator.mergedRule j c name group proxy
      = QJsonObject.insert
          (if (Configurator.storedRule j c).isEmpty
            then QJsonObject.insert (Configurator.storedRule j c) name (.object [])
            else Configurator.storedRule j c)
          name
          (.object (QJsonObject.insert (Configurator.getProxyGroupsRule j c name).1 group
            (.string proxy))) := by
  unfold Configurator.mergedRule Configurator.getProxyGroupsRule
  cases hR : Configurator.storedRule j c with
  | nil =>
    simp [QJsonObject.insert, sortedInsert, QJsonObject.findValue, QJsonValue.toObject]
  | cons e rest =>
    simp [findValue_eq_value]

theorem storedRule_setProxyGroupsRule (j : JsonText) (c : Configurator)
    (name group proxy : String) :
    Configurator.storedRule j (Configurator.setProxyGroupsRule j c name group proxy)
      = j.fromJson (j.toJson (Configurator.mergedRule j c name group proxy)) := by
  simp [Configurator.storedRule, Configurator.setProxyGroupsRule, Configurator.saveValue,
    Configurator.loadValue, QSettings.value, lookup_setValue, QVariant.toString]

/-- C8: when the JSON text written by `setProxyGroupsRule(configName, group,
proxy)` parses back to the object written, `getProxyGroupsRule(configName)`
afterwards maps `group` to `proxy` and gives every other group the selection it
had before, `getProxyGroupsRule(other)` is unchanged for every other config
name, and the stored mapping has an entry for `configName`. -/
theorem setProxyGroupsRule_spec (j : JsonText) (c : Configurator) (name group proxy : String)
    (hjson : j.fromJson (j.toJson (Configurator.mergedRule j c name group proxy))
      = Configurator.mergedRule j c name group proxy) :
    (∀ g : String,
      QJsonObject.value (Configurator.getProxyGroupsRule j
          (Configurator.setProxyGroupsRule j c name group proxy) name).1 g
        = if g = group then .string proxy
          else QJsonObject.value (Configurator.getProxyGroupsRule j c name).1 g) ∧
    (∀ other : String, other ≠ name →
      (Configurator.getProxyGroupsRule j
          (Configurator.setProxyGroupsRule j c name group proxy) other).1
        = (Configurator.getProxyGroupsRule j c other).1) ∧
    ((Configurator.storedRule j
        (Configurator.setProxyGroupsRule j c name group proxy)).lookup name).isSome = true := by
  have hstored : Configurator.storedRule j (Configurator.setProxyGroupsRule j c name group proxy)
      = Configurator.mergedRule j c name group proxy := by
    rw [storedRule_setProxyGroupsRule, hjson]
  have hmerged := mergedRule_eq j c name group proxy
  have hnonempty : (Configurator.mergedRule j c name group proxy).isEmpty = false := by
    rw [hmerged]
    have := sortedInsert_ne_nil
      (if (Configurator.storedRule j c).isEmpty
        then QJsonObject.insert (Configurator.storedRule j c) name (.object [])
        else Configurator.storedRule j c) name
      (QJsonValue.object (QJsonObject.insert (Configurator.getProxyGroupsRule j c name).1 group
        (.string proxy)))
    simpa [QJsonObject.insert, List.isEmpty_iff] using this
  have hafter : ∀ key : String,
      (Configurator.getProxyGroupsRule j
          (Configurator.setProxyGroupsRule j c name group proxy) key).1
        = (QJsonObject.value (Configurator.mergedRule j c name group proxy) key).toObject := by
    intro key
    simp only [Configurator.getProxyGroupsRule, hstored, hnonempty]
    simp
  refine ⟨?_, ?_, ?_⟩
  · intro g
    rw [hafter name, hmerged, value_insert]
    simp only [if_true, QJsonValue.toObject]
    rw [value_insert]
  · intro other hother
    rw [hafter other, hmerged, value_insert]
    simp only [hother, if_false]
    unfold Configurator.getProxyGroupsRule
    cases hR : Configurator.storedRule j c with
    | nil =>
      have hb : (other == name) = false := by simp [hother]
      simp [QJsonObject.insert, sortedInsert, QJsonObject.value, List.lookup, hb,
        QJsonValue.toObject]
    | cons e rest => simp
  · rw [hstored, hmerged]
    unfold QJsonObject.insert
    rw [lookup_sortedInsert]
    simp

/-- Witness for C8: rules are persisted for "home" only and the selection
`Proxy -> node-1` is stored for "work". -/
theorem setProxyGroupsRule_spec_witness :
    (Configurator.getProxyGroupsRule twoRuleTexts
        (loaded sampleDoc [("proxyGroupsRule", .byteArray "before")]) "work").1 = [] ∧
    (∀ g : String,
      QJsonObject.value (Configurator.getProxyGroupsRule twoRuleTexts
          (Configurator.setProxyGroupsRule twoRuleTexts
            (loaded sampleDoc [("proxyGroupsRule", .byteArray "before")]) "work" "Proxy"
            "node-1") "work").1 g
        = if g = "Proxy" then .string "node-1"
          else QJsonObject.value (Configurator.getProxyGroupsRule twoRuleTexts
            (loaded sampleDoc [("proxyGroupsRule", .byteArray "before")]) "work").1 g) ∧
    (Configurator.getProxyGroupsRule twoRuleTexts
        (Configurator.setProxyGroupsRule twoRuleTexts
          (loaded sampleDoc [("proxyGroupsRule", .byteArray "before")]) "work" "Proxy"
          "node-1") "home").1
      = (Configurator.getProxyGroupsRule twoRuleTexts
          (loaded sampleDoc [("proxyGroupsRule", .byteArray "before")]) "home").1 :=
  ⟨rfl,
   (setProxyGroupsRule_spec twoRuleTexts
      (loaded sampleDoc [("proxyGroupsRule", .byteArray "before")]) "work" "Proxy" "node-1"
      rfl).1,
   (setProxyGroupsRule_spec twoRuleTexts
      (loaded sampleDoc [("proxyGroupsRule", .byteArray "before")]) "work" "Proxy" "node-1"
      rfl).2.1 "home" (by decide)⟩

/-! ## Process supervisor -/

/-- The supervisor starts out consistent. -/
theorem consistent_create : ClashCore.create.consistent := by
  intro h
  rfl

/-- `start` keeps the supervisor consistent. -/
theorem consistent_start (core : ClashCore) (probe : ProbeOutcome) (h : core.consistent) :
    (core.start probe).2.consistent := by
  obtain ⟨⟨state, code⟩⟩ := core
  unfold ClashCore.consistent at h ⊢
  cases state <;> cases probe <;>
    simp_all [ClashCore.start, QProcess.start, QProcess.waitForFinished]

/-- `stop` leaves a consistent supervisor. -/
theorem consistent_stop (core : ClashCore) (killCode : Int) :
    (core.stop killCode).2.consistent := by
  obtain ⟨⟨state, code⟩⟩ := core
  unfold ClashCore.consistent
  cases state <;> simp [ClashCore.stop, QProcess.killAndWait]

/-- C9: for a supervisor whose process has exit code 0 unless it has finished,
and for every outcome of the 500 ms wait, `start()` returns true if and only if
the worker exited with code 0 or is still running afterwards; an exit with a
non-zero code gives false; a worker that is still alive gives true, and
`isRunning()` is then true. -/
theorem start_result (core : ClashCore) (probe : ProbeOutcome) (h : core.consistent) :
    ((core.start probe).1 = true ↔
      (probe = .exited 0 ∨ (core.start probe).2.isRunning = true)) ∧
    (∀ code : Int, probe = .exited code → code ≠ 0 → (core.start probe).1 = false) ∧
    (probe = .alive → (core.start probe).1 = true ∧ (core.start probe).2.isRunning = true) := by
  obtain ⟨⟨state, code⟩⟩ := core
  unfold ClashCore.consistent at h
  cases state <;> cases probe <;>
    simp_all [ClashCore.start, ClashCore.isRunning, QProcess.start, QProcess.waitForFinished]

/-- Witness for C9: a fresh supervisor whose worker stays alive. -/
theorem start_result_witness :
    (ClashCore.create.start .alive).1 = true ∧
    (ClashCore.create.start .alive).2.isRunning = true ∧
    (ClashCore.create.start (.exited 1)).1 = false :=
  ⟨((start_result ClashCore.create .alive consistent_create).2.2 rfl).1,
   ((start_result ClashCore.create .alive consistent_create).2.2 rfl).2,
   (start_result ClashCore.create (.exited 1) consistent_create).2.1 1 rfl (by decide)⟩

/-- C10: from every state of the process `stop()` returns true and `isRunning()`
is false afterwards; with no running process the state is left as it is; a
second `stop()` changes nothing. -/
theorem stop_result (core : ClashCore) (killCode : Int) :
    (core.stop killCode).1 = true ∧
    (core.stop killCode).2.isRunning = false ∧
    (core.clashProcess.state = .NotRunning → (core.stop killCode).2 = core) ∧
    (∀ killCode2 : Int, ((core.stop killCode).2.stop killCode2).2 = (core.stop killCode).2) := by
  obtain ⟨⟨state, code⟩⟩ := core
  cases state <;> simp [ClashCore.stop, ClashCore.isRunning, QProcess.killAndWait]

/-- C11: for every initial state and every outcome of the startup wait,
`restart()` is `stop()` followed by `start()` with the running state as result:
it ends in the state reached by `stop(); start()`, which is the state a `start()`
from any not-running supervisor reaches, and its result is what `isRunning()`
returns right after the call. -/
theorem restart_refines (core : ClashCore) (killCode : Int) (probe : ProbeOutcome) :
    core.restart killCode probe = core.restartSpec killCode probe ∧
    (core.restart killCode probe).2 = ((core.stop killCode).2.start probe).2 ∧
    (∀ idle : ClashCore, idle.clashProcess.state = .NotRunning →
      (core.restart killCode probe).2 = (idle.start probe).2) ∧
    (core.restart killCode probe).2 = (ClashCore.create.start probe).2 ∧
    (core.restart killCode probe).1 = (core.restart killCode probe).2.isRunning := by
  refine ⟨rfl, rfl, ?_, ?_, rfl⟩
  · intro idle hidle
    obtain ⟨⟨state, code⟩⟩ := core
    obtain ⟨⟨state0, code0⟩⟩ := idle
    simp only at hidle
    subst hidle
    cases state <;> cases probe <;>
      simp [ClashCore.restart, ClashCore.stop, ClashCore.start, QProcess.killAndWait,
        QProcess.start, QProcess.waitForFinished]
  · obtain ⟨⟨state, code⟩⟩ := core
    cases state <;> cases probe <;>
      simp [ClashCore.restart, ClashCore.stop, ClashCore.start, ClashCore.create,
        QProcess.killAndWait, QProcess.start, QProcess.waitForFinished]

/-- Witness for C11: a running supervisor is restarted and the new worker stays
alive; the final state is that of a first start, and the result is true. -/
theorem restart_refines_witness :
    ({ clashProcess := { state := .Running, exitCode := 0 } } : ClashCore).restart 9 .alive
      = (true, { clashProcess := { state := .Running, exitCode := 0 } }) ∧
    (({ clashProcess := { state := .Running, exitCode := 0 } } : ClashCore).restart 9 .alive).2
      = (ClashCore.create.start .alive).2 :=
  ⟨rfl, (restart_refines { clashProcess := { state := .Running, exitCode := 0 } } 9 .alive).2.2.2.1⟩

/-! ## Log level and mode -/

theorem defined_of_asString (root : YamlDoc) (key y : String)
    (h : YamlDoc.asString root key = .ok y) : YamlDoc.defined root key = true := by
  unfold YamlDoc.asString at h
  unfold YamlDoc.defined
  cases hl : root.lookup key with
  | none => simp [hl] at h
  | some node => rfl

/-- On a document that omits `log-level` the getter reads the store with the
default "info". -/
theorem getLogLevel_omitted (c : Configurator)
    (h : YamlDoc.defined c.root "log-level" = false) :
    c.getLogLevel = .ok (c.loadValue "logLevel" (.string "info")).toString := by
  simp [Configurator.getLogLevel, h, bind, Except.bind, pure, Except.pure]

/-- On a document whose `log-level` is the text `y` the getter reads the store
with the default `y`. -/
theorem getLogLevel_present (c : Configurator) (y : String)
    (h : YamlDoc.asString c.root "log-level" = .ok y) :
    c.getLogLevel = .ok (c.loadValue "logLevel" (.string y)).toString := by
  have hd := defined_of_asString c.root "log-level" y h
  simp [Configurator.getLogLevel, hd, h, bind, Except.bind, pure, Except.pure]

/-- C12: `getLogLevel()` follows override, then document, then fallback. On a
document that omits `log-level` or whose `log-level` is a text `y`: a stored
`logLevel` override is returned (as text); with no override the result is `y`
when the document has the field and "info" when it omits it. On a document
that omits `log-level` the getter always returns. After `setLogLevel(level)`
the getter returns `level`. -/
theorem getLogLevel_precedence (c : Configurator) :
    (∀ v : QVariant, c.settings.lookup "logLevel" = some v →
      (YamlDoc.defined c.root "log-level" = false ∨
        ∃ y, YamlDoc.asString c.root "log-level" = .ok y) →
      c.getLogLevel = .ok v.toString) ∧
    (∀ y : String, c.settings.lookup "logLevel" = none →
      YamlDoc.asString c.root "log-level" = .ok y → c.getLogLevel = .ok y) ∧
    (c.settings.lookup "logLevel" = none → YamlDoc.defined c.root "log-level" = false →
      c.getLogLevel = .ok "info") ∧
    (YamlDoc.defined c.root "log-level" = false → ∃ level, c.getLogLevel = .ok level) ∧
    (∀ level : String,
      (YamlDoc.defined c.root "log-level" = false ∨
        ∃ y, YamlDoc.asString c.root "log-level" = .ok y) →
      (c.setLogLevel level).getLogLevel = .ok level) := by
  refine ⟨?_, ?_, ?_, ?_, ?_⟩
  · intro v hv hdoc
    rcases hdoc with hno | ⟨y, hy⟩
    · rw [getLogLevel_omitted c hno]
      simp [Configurator.loadValue, QSettings.value, hv]
    · rw [getLogLevel_present c y hy]
      simp [Configurator.loadValue, QSettings.value, hv]
  · intro y hnone hy
    rw [getLogLevel_present c y hy]
    simp [Configurator.loadValue, QSettings.value, hnone, QVariant.toString]
  · intro hnone hno
    rw [getLogLevel_omitted c hno]
    simp [Configurator.loadValue, QSettings.value, hnone, QVariant.toString]
  · intro hno
    exact ⟨_, getLogLevel_omitted c hno⟩
  · intro level hdoc
    have hstored : (c.setLogLevel level).settings.lookup "logLevel" = some (.string level) := by
      simp [Configurator.setLogLevel, Configurator.saveValue, lookup_setValue]
    have hroot : (c.setLogLevel level).root = c.root := rfl
    rcases hdoc with hno | ⟨y, hy⟩
    · rw [getLogLevel_omitted (c.setLogLevel level) (by rw [hroot]; exact hno)]
      simp [Configurator.loadValue, QSettings.value, hstored, QVariant.toString]
    · rw [getLogLevel_present (c.setLogLevel level) y (by rw [hroot]; exact hy)]
      simp [Configurator.loadValue, QSettings.value, hstored, QVariant.toString]

/-- Witness for C12: the override "debug" wins over `log-level: info` and over
a document without the field; without an override the results are "info" from
the document and "info" from the fallback. -/
theorem getLogLevel_precedence_witness :
    (loaded sampleDoc [("logLevel", .string "debug")]).getLogLevel = .ok "debug" ∧
    (loaded portsOnlyDoc [("logLevel", .string "debug")]).getLogLevel = .ok "debug" ∧
    (loaded sampleDoc []).getLogLevel = .ok "info" ∧
    (loaded portsOnlyDoc []).getLogLevel = .ok "info" ∧
    ((loaded portsOnlyDoc []).setLogLevel "silent").getLogLevel = .ok "silent" :=
  ⟨(getLogLevel_precedence (loaded sampleDoc [("logLevel", .string "debug")])).1
      (.string "debug") rfl (Or.inr ⟨"info", rfl⟩),
   (getLogLevel_precedence (loaded portsOnlyDoc [("logLevel", .string "debug")])).1
      (.string "debug") rfl (Or.inl rfl),
   (getLogLevel_precedence (loaded sampleDoc [])).2.1 "info" rfl rfl,
   (getLogLevel_precedence (loaded portsOnlyDoc [])).2.2.1 rfl rfl,
   (getLogLevel_precedence (loaded portsOnlyDoc [])).2.2.2.2 "silent" (Or.inl rfl)⟩

/-- On a document whose `mode` is the text `y`, the getter reads the store with
the default `y`. -/
theorem getMode_present (c : Configurator) (y : String)
    (h : YamlDoc.asString c.root "mode" = .ok y) :
    c.getMode = .ok (c.loadValue "mode" (.string y)).toString := by
  simp [Configurator.getMode, h, bind, Except.bind, pure, Except.pure]

/-- On a document whose `mode` is a text, `getMode` after `setMode(m)` is `m`, and
with no override it is the mode of the document. -/
theorem getMode_with_mode_field (c : Configurator) (y : String)
    (h : YamlDoc.asString c.root "mode" = .ok y) :
    (∀ m : String, (c.setMode m).getMode = .ok m) ∧
    (c.settings.lookup "mode" = none → c.getMode = .ok y) := by
  constructor
  · intro m
    have hroot : (c.setMode m).root = c.root := rfl
    rw [getMode_present (c.setMode m) y (by rw [hroot]; exact h)]
    simp [Configurator.setMode, Configurator.saveValue, Configurator.loadValue, QSettings.value,
      lookup_setValue, QVariant.toString]
  · intro hnone
    rw [getMode_present c y h]
    simp [Configurator.loadValue, QSettings.value, hnone, QVariant.toString]

/-- On a document without a `mode` field `getMode` throws, whatever the store
holds: the default argument is converted before the store is read. -/
theorem getMode_without_mode_field (c : Configurator) (h : c.root.lookup "mode" = none) :
    c.getMode = .error .typedBadConversion := by
  simp [Configurator.getMode, YamlDoc.asString, h, bind, Except.bind]

/-- C13 (evaluated at the failing input): the loaded document has no `mode`
field. After `setMode("global")` the store holds the override `mode = global`,
yet `getMode()` throws the conversion error instead of returning "global". On
the document with `mode: rule` the getter returns "global" after the same
`setMode`, and "rule" with no override. -/
theorem getMode_after_setMode_no_mode_field :
    (fresh portsOnlyDoc []).loadClashConfig "config"
      = .ok (portsOnlyDoc, loaded portsOnlyDoc []) ∧
    ((loaded portsOnlyDoc []).setMode "global").settings = [("mode", .string "global")] ∧
    ((loaded portsOnlyDoc []).setMode "global").getMode = .error .typedBadConversion ∧
    ((loaded sampleDoc []).setMode "global").getMode = .ok "global" ∧
    (loaded sampleDoc []).getMode = .ok "rule" := by
  refine ⟨rfl, rfl, rfl, rfl, rfl⟩

end Qlash
